import Mathlib

/-!
Shallow embedding of the dataset registry and status-workflow core of
MassSpec_FHE (`src/frontend/web/src/App.tsx`).

The external key-value ledger (`contract.getData` / `contract.setData`) is a
total map from string keys to stored byte values.  Stored bytes are modelled
by the shapes the program reads and writes:

* `Bytes.empty` — a zero-length byte string, returned by `getData` for an
  absent key (the code checks `bytes.length > 0` / `=== 0`);
* `Bytes.recordJson r` — a JSON object with the record fields written by
  `uploadData` / `analyzeData` (`data`, `timestamp`, `owner`, `sampleType`,
  `status`, `fheResult`; the latter two may be absent, matching
  `data.status || "pending"` and the optional `fheResult`);
* `Bytes.keysJson ks` — a JSON array of strings (the key index written under
  `"massspec_keys"`);
* `Bytes.malformed emsg` — bytes on which `JSON.parse` throws; `emsg` stands
  for the parse-error message carried by the thrown exception.

JSON values outside these shapes are never produced by the modelled
operations; a JSON value of the wrong shape for its key is treated like a
decode failure (skipped by the listing loop's `try`/`catch`).

Operations return an `OpResult`: the final transaction status shown to the
caller (`setTransactionStatus`), the ledger after the call, and the ordered
trace of `setData` writes the call issued.
-/

namespace MassSpecFHE

/-- A stored record object: the JSON value kept under a `massspec_<id>` key.
`status` and `fheResult` are `Option`s because the stored object can lack
those fields (the id is carried by the ledger key, not by the value). -/
structure StoredRecord where
  data : String
  timestamp : Int
  owner : String
  sampleType : String
  status : Option String
  fheResult : Option String
deriving DecidableEq, Repr

/-- Byte values stored in the ledger (see module docstring). -/
inductive Bytes where
  | empty : Bytes
  | recordJson : StoredRecord → Bytes
  | keysJson : List String → Bytes
  | malformed : String → Bytes
deriving DecidableEq, Repr

/-- The external key-value ledger: `getData` on an absent key yields empty
bytes, so the ledger is a total map into `Bytes`. -/
abbrev Ledger := String → Bytes

/-- Point update of the ledger, as performed by `contract.setData`. -/
def setKV (l : Ledger) (k : String) (v : Bytes) : Ledger :=
  fun k2 => if k2 = k then v else l k2

/-- The in-memory list entry built by `loadDataList` (interface
`MassSpecData` in the source). -/
structure MassSpecData where
  id : String
  encryptedData : String
  timestamp : Int
  owner : String
  sampleType : String
  status : String
  fheResult : Option String
deriving DecidableEq, Repr

/-- The fixed index key `"massspec_keys"`. -/
def keysKey : String := "massspec_keys"

/-- The per-record key: `` `massspec_${id}` ``. -/
def recordKey (id : String) : String := "massspec_" ++ id

/-- `data.status || "pending"`: an absent or empty status field defaults to
`"pending"` (the only falsy string is `""`). -/
def statusOrPending : Option String → String
  | none => "pending"
  | some s => if s = "" then "pending" else s

/-- One iteration of the `loadDataList` loop body for key `key`: skip when
the bytes are empty (`dataBytes.length > 0` fails) or fail to parse
(`JSON.parse` throws, caught and logged); otherwise build the list entry. -/
def decodeEntry (key : String) (b : Bytes) : Option MassSpecData :=
  match b with
  | Bytes.recordJson r =>
      some { id := key
             encryptedData := r.data
             timestamp := r.timestamp
             owner := r.owner
             sampleType := r.sampleType
             status := statusOrPending r.status
             fheResult := r.fheResult }
  | _ => none

/-- Parsing the index bytes: `keys` starts as `[]` and is only replaced when
the bytes are non-empty and `JSON.parse` succeeds on a string array. -/
def parseKeys (b : Bytes) : List String :=
  match b with
  | Bytes.keysJson ks => ks
  | _ => []

/-- The sort comparator `(a, b) => b.timestamp - a.timestamp`: `a` may stay
before `b` iff the comparator is `≤ 0`, i.e. `b.timestamp ≤ a.timestamp`. -/
def tsDescLe (a b : MassSpecData) : Bool :=
  decide (b.timestamp ≤ a.timestamp)

/-- `loadDataList`: read the index key, parse it, fetch and decode each
record (skipping empty or unparseable ones), and sort by descending
timestamp. -/
def loadDataList (l : Ledger) : List MassSpecData :=
  let keys := parseKeys (l keysKey)
  let list := keys.filterMap (fun key => decodeEntry key (l (recordKey key)))
  list.mergeSort tsDescLe

/-- Statistics: `dataList.filter(d => d.status === "analyzed").length`. -/
def analyzedCount (dataList : List MassSpecData) : Nat :=
  (dataList.filter (fun d => d.status == "analyzed")).length

/-- Statistics: `dataList.filter(d => d.status === "pending").length`. -/
def pendingCount (dataList : List MassSpecData) : Nat :=
  (dataList.filter (fun d => d.status == "pending")).length

/-- Statistics: `dataList.filter(d => d.status === "error").length`. -/
def errorCount (dataList : List MassSpecData) : Nat :=
  (dataList.filter (fun d => d.status == "error")).length

/-- `dataList.length || 1`: `0` is the only falsy number, so an empty list
contributes denominator `1`. -/
def lengthOr1 (n : Nat) : Nat := if n = 0 then 1 else n

/-- A bar height from `renderBarChart`:
`(count / (dataList.length || 1)) * 100`. -/
def barHeight (count total : Nat) : ℚ :=
  ((count : ℚ) / (lengthOr1 total : ℚ)) * 100

/-- `.toLowerCase()`, modelled as per-character lowercasing of the string's
characters (account addresses are ASCII hex strings). -/
def lowerStr (s : String) : String := String.mk (s.data.map Char.toLower)

/-- `isOwner`: case-insensitive equality of the acting account with the
record's owner address
(`account.toLowerCase() === address.toLowerCase()`). -/
def isOwner (account : String) (address : String) : Bool :=
  lowerStr account == lowerStr address

/-- The guard under which the Analyze control is rendered for a row:
`isOwner(data.owner) && data.status === "pending"`. -/
def canAnalyze (account : String) (d : MassSpecData) : Bool :=
  isOwner account d.owner && d.status == "pending"

/-- The transaction status surfaced to the caller via
`setTransactionStatus` when an operation finishes. -/
inductive TxStatus where
  | success : String → TxStatus
  | error : String → TxStatus
deriving DecidableEq, Repr

/-- Result of running one operation: the surfaced status, the ledger after
the call, and the ordered trace of `setData` writes the call issued. -/
structure OpResult where
  res : TxStatus
  ledger : Ledger
  writes : List (String × Bytes)

/-- The simulated analysis result constant (`const fheResult = …` in
`analyzeData`). -/
def fheResultConst : String :=
  "FHE-Molecular-Profile: C6H12O6 (Glucose) @ 95% confidence"

/-- `analyzeData(dataId)`.  `signerOk` models whether
`getContractWithSigner()` returns a usable contract; when it does not, the
thrown error is a transport-level failure.  Every `throw` is caught by the
surrounding `try`/`catch`, which surfaces
`"Analysis failed: " + e.message` and performs no further effect.  Note the
body checks neither the acting identity nor the record's current status. -/
def analyzeData (signerOk : Bool) (l : Ledger) (dataId : String) : OpResult :=
  if signerOk = false then
    { res := TxStatus.error ("Analysis failed: " ++ "Failed to get contract with signer")
      ledger := l, writes := [] }
  else
    match l (recordKey dataId) with
    | Bytes.empty =>
        -- `dataBytes.length === 0` → throw "Data not found"
        { res := TxStatus.error ("Analysis failed: " ++ "Data not found")
          ledger := l, writes := [] }
    | Bytes.malformed emsg =>
        -- `JSON.parse` throws
        { res := TxStatus.error ("Analysis failed: " ++ emsg)
          ledger := l, writes := [] }
    | Bytes.keysJson _ =>
        -- non-record JSON under a record key never arises from the modelled
        -- operations; treated as a decode failure
        { res := TxStatus.error ("Analysis failed: " ++ "unexpected value shape")
          ledger := l, writes := [] }
    | Bytes.recordJson data =>
        let updatedData : StoredRecord :=
          { data with status := some "analyzed", fheResult := some fheResultConst }
        { res := TxStatus.success "FHE molecular analysis completed successfully!"
          ledger := setKV l (recordKey dataId) (Bytes.recordJson updatedData)
          writes := [(recordKey dataId, Bytes.recordJson updatedData)] }

/-- The form-field state behind the upload modal. -/
structure NewData where
  sampleType : String
  description : String
  massSpecData : String
deriving DecidableEq, Repr

/-- The generated identifier
`` `ms-${Date.now()}-${Math.random().toString(36).substring(2, 9)}` ``:
`now` is the millisecond clock value and `rand` the base-36 random suffix
(which contains no `'-'` character). -/
def genId (now : Nat) (rand : String) : String :=
  "ms-" ++ Nat.repr now ++ "-" ++ rand

/-- `uploadData()`.  `signerOk` as in `analyzeData`; `enc` stands for the
opaque base64 blob `btoa(JSON.stringify(newData))` (simulated encryption is
a string tag, not a computation).  The record is written under its derived
key first; only then is the index read, extended in memory by an
unconditional `keys.push(dataId)`, and written back. -/
def uploadData (signerOk : Bool) (l : Ledger) (account : String)
    (newData : NewData) (now : Nat) (rand : String) (enc : String) : OpResult :=
  if signerOk = false then
    { res := TxStatus.error ("Upload failed: " ++ "Failed to get contract with signer")
      ledger := l, writes := [] }
  else
    let encryptedData := "FHE-MS-" ++ enc
    let dataId := genId now rand
    let massSpecData : StoredRecord :=
      { data := encryptedData
        timestamp := ((now / 1000 : Nat) : Int)
        owner := account
        sampleType := newData.sampleType
        status := some "pending"
        fheResult := none }
    let l1 := setKV l (recordKey dataId) (Bytes.recordJson massSpecData)
    let keys := parseKeys (l1 keysKey)
    let keys2 := keys ++ [dataId]
    let l2 := setKV l1 keysKey (Bytes.keysJson keys2)
    { res := TxStatus.success "Mass spec data encrypted and uploaded securely!"
      ledger := l2
      writes := [(recordKey dataId, Bytes.recordJson massSpecData),
                 (keysKey, Bytes.keysJson keys2)] }

/-- The stored-object shape the two writers produce for a record value: the
object literal in `uploadData` and the spread `{...data, status, fheResult}`
in `analyzeData` (the id is carried by the ledger key, not the value). -/
def encodeRecord (d : MassSpecData) : Bytes :=
  Bytes.recordJson
    { data := d.encryptedData
      timestamp := d.timestamp
      owner := d.owner
      sampleType := d.sampleType
      status := some d.status
      fheResult := d.fheResult }

/-! ### Concrete sample states for instantiation -/

/-- The ledger with no key set (every `getData` yields empty bytes). -/
def emptyLedger : Ledger := fun _ => Bytes.empty

/-- A stored record with status `pending`, owned by `0xAAA`. -/
def rPending : StoredRecord :=
  { data := "FHE-MS-x", timestamp := 5, owner := "0xAAA",
    sampleType := "Protein", status := some "pending", fheResult := none }

/-- A stored record with status `error`, owned by `0xAAA`. -/
def rError : StoredRecord :=
  { data := "FHE-MS-x", timestamp := 5, owner := "0xAAA",
    sampleType := "Protein", status := some "error", fheResult := none }

/-- A stored record whose `status` field is absent. -/
def rNoStatus : StoredRecord :=
  { data := "FHE-MS-x", timestamp := 5, owner := "0xAAA",
    sampleType := "Protein", status := none, fheResult := none }

/-- A ledger holding one pending record under id `d1` (no index yet). -/
def ledgerPending : Ledger :=
  setKV emptyLedger (recordKey "d1") (Bytes.recordJson rPending)

/-- A ledger holding one `error`-status record under id `d1`. -/
def ledgerError : Ledger :=
  setKV emptyLedger (recordKey "d1") (Bytes.recordJson rError)

/-- A ledger whose record bytes under id `d1` fail `JSON.parse`. -/
def ledgerBad : Ledger :=
  setKV emptyLedger (recordKey "d1") (Bytes.malformed "Unexpected token")

/-- A ledger whose index already lists the identifier `ms-1-a`. -/
def ledgerIdx : Ledger :=
  setKV emptyLedger keysKey (Bytes.keysJson ["ms-1-a"])

/-- A ledger with index `[d1]` and a record under `d1` lacking a status
field. -/
def ledgerNoStatus : Ledger :=
  setKV (setKV emptyLedger keysKey (Bytes.keysJson ["d1"]))
    (recordKey "d1") (Bytes.recordJson rNoStatus)

/-- Sample form-field state. -/
def nd0 : NewData := { sampleType := "Protein", description := "", massSpecData := "mz" }

/-! ### Generic helper lemmas -/

/-- The length of a `filterMap` counts the inputs on which `f` succeeds. -/
theorem length_filterMap_countP {α β : Type} (f : α → Option β) (l : List α) :
    (l.filterMap f).length = l.countP (fun a => (f a).isSome) := by
  induction l with
  | nil => rfl
  | cons x xs ih =>
    cases hfx : f x <;>
      simp [List.filterMap_cons, hfx, List.countP_cons, ih]

/-- Splitting a list at a distinguished element absent from both prefixes is
unambiguous. -/
theorem append_cons_inj {α : Type} [DecidableEq α] {c : α} :
    ∀ {a a' b b' : List α}, c ∉ a → c ∉ a' →
      a ++ c :: b = a' ++ c :: b' → a = a' ∧ b = b' := by
  intro a
  induction a with
  | nil =>
    intro a' b b' _ ha' h
    cases a' with
    | nil => simpa using h
    | cons y ys =>
      simp only [List.nil_append, List.cons_append, List.cons.injEq] at h
      exact absurd (h.1 ▸ List.mem_cons_self y ys) ha'
  | cons x xs ih =>
    intro a' b b' ha ha' h
    cases a' with
    | nil =>
      simp only [List.nil_append, List.cons_append, List.cons.injEq] at h
      exact absurd (h.1 ▸ List.mem_cons_self x xs) (h.1 ▸ ha)
    | cons y ys =>
      simp only [List.cons_append, List.cons.injEq] at h
      obtain ⟨rfl, h2⟩ := h
      have := ih (fun hc => ha (List.mem_cons_of_mem _ hc))
        (fun hc => ha' (List.mem_cons_of_mem _ hc)) h2
      exact ⟨by rw [this.1], this.2⟩

/-! ### Decimal printing (`Nat.repr`) is injective

The generated identifier embeds `Date.now()` printed in decimal; these
lemmas let us conclude that distinct clock values (or distinct random
suffixes) yield distinct identifiers. -/

/-- `Nat.toDigitsCore` with enough fuel produces the base-10 digits
(most-significant first) in front of the accumulator. -/
theorem toDigitsCore_eq_digits :
    ∀ (fuel n : ℕ) (ds : List Char), n ≠ 0 → n < fuel →
      Nat.toDigitsCore 10 fuel n ds =
        ((Nat.digits 10 n).map Nat.digitChar).reverse ++ ds := by
  intro fuel
  induction fuel with
  | zero => intro n ds _ h; omega
  | succ f ih =>
    intro n ds hn hlt
    rw [Nat.digits_def' (by norm_num : (1:ℕ) < 10) (Nat.pos_of_ne_zero hn)]
    by_cases h : n / 10 = 0
    · simp [Nat.toDigitsCore, h, Nat.digits_eq_nil_iff_eq_zero]
    · have hdiv : n / 10 < f := by
        have h1 : n / 10 < n := Nat.div_lt_self (Nat.pos_of_ne_zero hn) (by norm_num)
        omega
      simp only [Nat.toDigitsCore, h, if_false]
      rw [ih (n / 10) (Nat.digitChar (n % 10) :: ds) h hdiv]
      simp

/-- For nonzero `n`, `Nat.toDigits 10 n` is the reversed digit list mapped
through `Nat.digitChar`. -/
theorem toDigits_eq_digits (n : ℕ) (hn : n ≠ 0) :
    Nat.toDigits 10 n = ((Nat.digits 10 n).map Nat.digitChar).reverse := by
  unfold Nat.toDigits
  rw [toDigitsCore_eq_digits (n + 1) n [] hn (Nat.lt_succ_self n)]
  simp

/-- `Nat.digitChar` is injective below 10. -/
theorem digitChar_inj_lt : ∀ a < 10, ∀ b < 10,
    Nat.digitChar a = Nat.digitChar b → a = b := by decide

/-- Mapping `Nat.digitChar` over digit lists (entries `< 10`) is injective. -/
theorem map_digitChar_inj :
    ∀ (l1 l2 : List ℕ), (∀ x ∈ l1, x < 10) → (∀ x ∈ l2, x < 10) →
      l1.map Nat.digitChar = l2.map Nat.digitChar → l1 = l2 := by
  intro l1
  induction l1 with
  | nil => intro l2 _ _ h; cases l2 <;> simp_all
  | cons x xs ih =>
    intro l2 h1 h2 h
    cases l2 with
    | nil => simp_all
    | cons y ys =>
      simp only [List.map_cons, List.cons.injEq] at h
      have hx : x = y := digitChar_inj_lt x (h1 x (List.mem_cons_self x xs))
        y (h2 y (List.mem_cons_self y ys)) h.1
      have := ih ys (fun z hz => h1 z (List.mem_cons_of_mem _ hz))
        (fun z hz => h2 z (List.mem_cons_of_mem _ hz)) h.2
      rw [hx, this]

/-- The printed form of a nonzero number is not `['0']`. -/
theorem toDigits_ne_zero_char (n : ℕ) (hn : n ≠ 0) :
    Nat.toDigits 10 n ≠ ['0'] := by
  rw [toDigits_eq_digits n hn]
  intro h
  have h' : (Nat.digits 10 n).map Nat.digitChar = ['0'] := by
    have := congrArg List.reverse h
    simpa using this
  have hd : Nat.digits 10 n = [0] := by
    have h10 : (∀ x ∈ [0], x < 10) := by decide
    exact map_digitChar_inj _ [0] (fun x hx => Nat.digits_lt_base (by norm_num) hx) h10
      (by simpa using h')
  have := Nat.getLast_digit_ne_zero 10 hn
  simp [hd] at this

/-- Decimal printing is injective. -/
theorem nat_repr_injective : Function.Injective Nat.repr := by
  intro m n h
  have hdat : Nat.toDigits 10 m = Nat.toDigits 10 n := by
    have := congrArg String.data h
    simpa [Nat.repr, List.asString] using this
  by_cases hm : m = 0 <;> by_cases hn : n = 0
  · omega
  · exfalso
    subst hm
    exact toDigits_ne_zero_char n hn hdat.symm
  · exfalso
    subst hn
    exact toDigits_ne_zero_char m hm hdat
  · have h1 : ((Nat.digits 10 m).map Nat.digitChar).reverse =
        ((Nat.digits 10 n).map Nat.digitChar).reverse := by
      rw [← toDigits_eq_digits m hm, ← toDigits_eq_digits n hn]; exact hdat
    have h2 : Nat.digits 10 m = Nat.digits 10 n :=
      map_digitChar_inj _ _ (fun x hx => Nat.digits_lt_base (by norm_num) hx)
        (fun x hx => Nat.digits_lt_base (by norm_num) hx)
        (List.reverse_injective h1)
    have := congrArg (Nat.ofDigits 10) h2
    rwa [Nat.ofDigits_digits, Nat.ofDigits_digits] at this

/-- No `'-'` occurs in the decimal printing of a natural number. -/
theorem repr_no_dash (n : ℕ) : '-' ∉ (Nat.repr n).data := by
  by_cases hn : n = 0
  · subst hn; decide
  · have hrepr : (Nat.repr n).data = ((Nat.digits 10 n).map Nat.digitChar).reverse := by
      simp [Nat.repr, List.asString, toDigits_eq_digits n hn]
    rw [hrepr]
    intro hmem
    rw [List.mem_reverse, List.mem_map] at hmem
    obtain ⟨d, hd, hdc⟩ := hmem
    have hlt := Nat.digits_lt_base (by norm_num : (1:ℕ) < 10) hd
    have hnd : ∀ d < 10, Nat.digitChar d ≠ '-' := by decide
    exact hnd d hlt hdc

/-! ### Key and identifier structure -/

/-- The character list underlying a generated identifier. -/
theorem genId_data (now : ℕ) (rand : String) :
    (genId now rand).data =
      'm' :: 's' :: '-' :: ((Nat.repr now).data ++ '-' :: rand.data) := by
  have h1 : ("ms-" : String).data = ['m', 's', '-'] := rfl
  have h2 : ("-" : String).data = ['-'] := rfl
  simp [genId, String.data_append, h1, h2]

/-- A generated identifier is never the literal `"keys"`, so a record key
never collides with the index key. -/
theorem genId_ne_keys (now : ℕ) (rand : String) : genId now rand ≠ "keys" := by
  intro h
  have := congrArg String.data h
  rw [genId_data] at this
  simp [show ("keys" : String).data = ['k', 'e', 'y', 's'] from rfl] at this

/-- `massspec_<x>` is the index key `massspec_keys` iff `x = "keys"`. -/
theorem recordKey_eq_keysKey_iff (x : String) : recordKey x = keysKey ↔ x = "keys" := by
  constructor
  · intro h
    have hd := congrArg String.data h
    have h1 : (keysKey : String).data = ("massspec_" : String).data ++ ("keys" : String).data := rfl
    rw [recordKey, String.data_append, h1] at hd
    exact String.ext (List.append_cancel_left hd)
  · intro h; rw [h]; rfl

/-- A generated identifier's record key never collides with the index key. -/
theorem recordKey_genId_ne_keysKey (now : ℕ) (rand : String) :
    recordKey (genId now rand) ≠ keysKey := by
  intro h
  exact genId_ne_keys now rand ((recordKey_eq_keysKey_iff _).mp h)

/-- Distinct identifiers give distinct record keys. -/
theorem recordKey_inj {x y : String} (h : recordKey x = recordKey y) : x = y := by
  have hd := congrArg String.data h
  rw [recordKey, recordKey, String.data_append, String.data_append] at hd
  exact String.ext (List.append_cancel_left hd)

/-- Identifier generation is injective: two generated identifiers coincide
only when both the millisecond clock value and the random suffix coincide
(the decimal clock part contains no `'-'`, so the split is unambiguous). -/
theorem genId_inj (now now' : ℕ) (rand rand' : String)
    (h : genId now rand = genId now' rand') : now = now' ∧ rand = rand' := by
  have hd := congrArg String.data h
  rw [genId_data, genId_data] at hd
  simp only [List.cons.injEq, true_and] at hd
  obtain ⟨h1, h2⟩ := append_cons_inj (repr_no_dash now) (repr_no_dash now') hd
  exact ⟨nat_repr_injective (String.ext h1), String.ext h2⟩

/-! ### `loadDataList` characterization -/

/-- The listing keeps exactly the index entries whose record bytes decode. -/
theorem loadDataList_length (l : Ledger) :
    (loadDataList l).length =
      (parseKeys (l keysKey)).countP
        (fun k => (decodeEntry k (l (recordKey k))).isSome) := by
  simp [loadDataList, List.length_mergeSort, length_filterMap_countP]

/-- An entry is listed iff some index key decodes to it. -/
theorem mem_loadDataList_iff (l : Ledger) (d : MassSpecData) :
    d ∈ loadDataList l ↔
      ∃ k ∈ parseKeys (l keysKey), decodeEntry k (l (recordKey k)) = some d := by
  simp [loadDataList, List.mem_mergeSort, List.mem_filterMap]

/-- The listing is sorted by descending creation timestamp. -/
theorem loadDataList_sorted (l : Ledger) :
    (loadDataList l).Pairwise (fun a b => b.timestamp ≤ a.timestamp) := by
  have htrans : ∀ a b c : MassSpecData,
      tsDescLe a b = true → tsDescLe b c = true → tsDescLe a c = true := by
    intro a b c hab hbc
    simp only [tsDescLe, decide_eq_true_eq] at *
    exact le_trans hbc hab
  have htotal : ∀ a b : MassSpecData, (tsDescLe a b || tsDescLe b a) = true := by
    intro a b
    simp only [tsDescLe, Bool.or_eq_true, decide_eq_true_eq]
    exact Int.le_total b.timestamp a.timestamp
  have h := List.sorted_mergeSort htrans htotal
    ((parseKeys (l keysKey)).filterMap (fun key => decodeEntry key (l (recordKey key))))
  refine (List.Pairwise.imp ?_ h)
  intro a b hab
  simpa [tsDescLe] using hab

/-- With the index key absent, the listing is empty. -/
theorem loadDataList_absent_index (S : Ledger) :
    loadDataList (setKV S keysKey Bytes.empty) = [] := by
  simp [loadDataList, setKV, parseKeys, List.mergeSort]


/-- C4: for an index of `n` identifiers of which exactly `k` decode, the
listing returns exactly those `k` records sorted by descending timestamp;
undecodable records are skipped; an absent index yields `[]`. -/
theorem loadDataList_spec (S : Ledger) :
    (loadDataList S).length =
        (parseKeys (S keysKey)).countP
          (fun k => (decodeEntry k (S (recordKey k))).isSome)
    ∧ (loadDataList S).Pairwise (fun a b => b.timestamp ≤ a.timestamp)
    ∧ (∀ d : MassSpecData, d ∈ loadDataList S ↔
        ∃ k ∈ parseKeys (S keysKey), decodeEntry k (S (recordKey k)) = some d)
    ∧ loadDataList (setKV S keysKey Bytes.empty) = [] :=
  ⟨loadDataList_length S, loadDataList_sorted S,
   fun d => mem_loadDataList_iff S d, loadDataList_absent_index S⟩

/-- C9: aggregation counts and bar heights. -/
theorem aggregate_barchart_spec (dataList : List MassSpecData) :
    lengthOr1 dataList.length = max dataList.length 1
    ∧ ((lengthOr1 dataList.length : ℚ) ≠ 0)
    ∧ analyzedCount [] = 0 ∧ pendingCount [] = 0 ∧ errorCount [] = 0
    ∧ barHeight (analyzedCount []) (List.length ([] : List MassSpecData)) = 0
    ∧ barHeight (pendingCount []) (List.length ([] : List MassSpecData)) = 0
    ∧ barHeight (errorCount []) (List.length ([] : List MassSpecData)) = 0 := by
  refine ⟨?_, ?_, rfl, rfl, rfl, ?_, ?_, ?_⟩
  · unfold lengthOr1; split <;> omega
  · have h : lengthOr1 dataList.length ≠ 0 := by unfold lengthOr1; split <;> omega
    exact_mod_cast Nat.cast_ne_zero.mpr h
  all_goals simp [barHeight, analyzedCount, pendingCount, errorCount]

/-- C5: decoding the bytes produced by encoding a valid record yields the
record back (the id travels in the key, the fields in the value). -/
theorem decode_encode_roundtrip (d : MassSpecData)
    (hvalid : d.status = "pending" ∨ d.status = "analyzed" ∨ d.status = "error") :
    decodeEntry d.id (encodeRecord d) = some d := by
  have hne : d.status ≠ "" := by rcases hvalid with h | h | h <;> simp [h]
  cases d
  simp_all [decodeEntry, encodeRecord, statusOrPending]

/-- Witness for C5 at a concrete analyzed record. -/
theorem decode_encode_roundtrip_witness :
    decodeEntry "ms-1-a"
        (encodeRecord { id := "ms-1-a", encryptedData := "FHE-MS-x", timestamp := 5,
                        owner := "0xAAA", sampleType := "Protein", status := "analyzed",
                        fheResult := some "r" }) =
      some { id := "ms-1-a", encryptedData := "FHE-MS-x", timestamp := 5,
             owner := "0xAAA", sampleType := "Protein", status := "analyzed",
             fheResult := some "r" } :=
  decode_encode_roundtrip
    { id := "ms-1-a", encryptedData := "FHE-MS-x", timestamp := 5,
      owner := "0xAAA", sampleType := "Protein", status := "analyzed",
      fheResult := some "r" }
    (Or.inr (Or.inl rfl))

/-- C7: analyzing a missing id surfaces the not-found failure and issues no
write: the ledger is unmodified. -/
theorem analyze_missing_notfound (l : Ledger) (dataId : String)
    (h : l (recordKey dataId) = Bytes.empty) :
    (analyzeData true l dataId).res =
        TxStatus.error ("Analysis failed: " ++ "Data not found")
    ∧ (analyzeData true l dataId).writes = []
    ∧ (analyzeData true l dataId).ledger = l := by
  simp [analyzeData, h]

/-- Witness for C7 on the empty ledger. -/
theorem analyze_missing_notfound_witness :
    emptyLedger (recordKey "missing-id") = Bytes.empty
    ∧ ((analyzeData true emptyLedger "missing-id").res =
          TxStatus.error ("Analysis failed: " ++ "Data not found")
        ∧ (analyzeData true emptyLedger "missing-id").writes = []
        ∧ (analyzeData true emptyLedger "missing-id").ledger = emptyLedger) :=
  ⟨rfl, analyze_missing_notfound emptyLedger "missing-id" rfl⟩

/-- C10: a stored record lacking a status field (or with an empty one) is
listed with status `pending`, which lies in the status enumeration. -/
theorem decode_missing_status_pending (S : Ledger) (key : String) (r : StoredRecord)
    (hk : key ∈ parseKeys (S keysKey))
    (hr : S (recordKey key) = Bytes.recordJson r)
    (hs : r.status = none ∨ r.status = some "") :
    decodeEntry key (S (recordKey key)) =
        some { id := key, encryptedData := r.data, timestamp := r.timestamp,
               owner := r.owner, sampleType := r.sampleType, status := "pending",
               fheResult := r.fheResult }
    ∧ ({ id := key, encryptedData := r.data, timestamp := r.timestamp,
         owner := r.owner, sampleType := r.sampleType, status := "pending",
         fheResult := r.fheResult } : MassSpecData) ∈ loadDataList S
    ∧ ("pending" : String) ∈ (["pending", "analyzed", "error"] : List String) := by
  have hdec : decodeEntry key (S (recordKey key)) =
      some { id := key, encryptedData := r.data, timestamp := r.timestamp,
             owner := r.owner, sampleType := r.sampleType, status := "pending",
             fheResult := r.fheResult } := by
    rcases hs with h | h <;> simp [decodeEntry, hr, statusOrPending, h]
  exact ⟨hdec, (mem_loadDataList_iff S _).mpr ⟨key, hk, hdec⟩, by simp⟩

/-- Witness for C10 on a concrete ledger with a status-less record. -/
theorem decode_missing_status_pending_witness :
    ("d1" ∈ parseKeys (ledgerNoStatus keysKey)
      ∧ ledgerNoStatus (recordKey "d1") = Bytes.recordJson rNoStatus
      ∧ (rNoStatus.status = none ∨ rNoStatus.status = some ""))
    ∧ (decodeEntry "d1" (ledgerNoStatus (recordKey "d1")) =
          some { id := "d1", encryptedData := rNoStatus.data,
                 timestamp := rNoStatus.timestamp, owner := rNoStatus.owner,
                 sampleType := rNoStatus.sampleType, status := "pending",
                 fheResult := rNoStatus.fheResult }
        ∧ ({ id := "d1", encryptedData := rNoStatus.data,
             timestamp := rNoStatus.timestamp, owner := rNoStatus.owner,
             sampleType := rNoStatus.sampleType, status := "pending",
             fheResult := rNoStatus.fheResult } : MassSpecData) ∈ loadDataList ledgerNoStatus
        ∧ ("pending" : String) ∈ (["pending", "analyzed", "error"] : List String)) :=
  ⟨⟨by decide, by decide, Or.inl rfl⟩,
   decode_missing_status_pending ledgerNoStatus "d1" rNoStatus
     (by decide) (by decide) (Or.inl rfl)⟩


/-- C1 counterexample: acting identity `0xBBB` differs (case-insensitively)
from owner `0xAAA`, yet the analyze operation succeeds and issues a set on
the record's key — no `InvalidStateError`, and a ledger write occurs. -/
theorem analyze_nonowner_writes_cex :
    isOwner "0xBBB" rPending.owner = false
    ∧ (analyzeData true ledgerPending "d1").res =
        TxStatus.success "FHE molecular analysis completed successfully!"
    ∧ (analyzeData true ledgerPending "d1").writes.map Prod.fst = [recordKey "d1"] := by
  refine ⟨by decide, by decide, by decide⟩

/-- C1 amended: ownership is enforced only by the UI guard; the operation
itself writes for any acting identity. -/
theorem analyze_ownership_ui_only (account : String) (d : MassSpecData)
    (l : Ledger) (id : String) (r : StoredRecord)
    (hown : lowerStr account ≠ lowerStr d.owner)
    (hrec : l (recordKey id) = Bytes.recordJson r) :
    canAnalyze account d = false
    ∧ (analyzeData true l id).res =
        TxStatus.success "FHE molecular analysis completed successfully!"
    ∧ (analyzeData true l id).writes =
        [(recordKey id,
          Bytes.recordJson
            { r with status := some "analyzed", fheResult := some fheResultConst })] := by
  refine ⟨?_, ?_, ?_⟩
  · simp [canAnalyze, isOwner, hown]
  · simp [analyzeData, hrec]
  · simp [analyzeData, hrec]

/-- Witness for the C1 amended theorem at a concrete non-owner. -/
theorem analyze_ownership_ui_only_witness :
    (lowerStr "0xBBB" ≠ lowerStr "0xAAA"
      ∧ ledgerPending (recordKey "d1") = Bytes.recordJson rPending)
    ∧ (canAnalyze "0xBBB"
          { id := "d1", encryptedData := "FHE-MS-x", timestamp := 5, owner := "0xAAA",
            sampleType := "Protein", status := "pending", fheResult := none } = false
        ∧ (analyzeData true ledgerPending "d1").res =
            TxStatus.success "FHE molecular analysis completed successfully!"
        ∧ (analyzeData true ledgerPending "d1").writes =
            [(recordKey "d1",
              Bytes.recordJson
                { rPending with status := some "analyzed",
                                fheResult := some fheResultConst })]) :=
  ⟨⟨by decide, by decide⟩,
   analyze_ownership_ui_only "0xBBB"
     { id := "d1", encryptedData := "FHE-MS-x", timestamp := 5, owner := "0xAAA",
       sampleType := "Protein", status := "pending", fheResult := none }
     ledgerPending "d1" rPending (by decide) (by decide)⟩

/-- C2 counterexample: analyzing a record already in status `error` does not
fail with `InvalidStateError`; it succeeds and changes the stored bytes. -/
theorem analyze_error_status_overwritten_cex :
    (analyzeData true ledgerError "d1").res =
        TxStatus.success "FHE molecular analysis completed successfully!"
    ∧ (analyzeData true ledgerError "d1").ledger (recordKey "d1") ≠
        ledgerError (recordKey "d1")
    ∧ (analyzeData true ledgerError "d1").writes ≠ [] := by
  refine ⟨by decide, by decide, by decide⟩

/-- C2 amended: the status precondition exists only in the UI guard; the
operation itself overwrites records in status `analyzed` or `error`. -/
theorem analyze_no_status_check (l : Ledger) (id : String) (r : StoredRecord)
    (account : String) (d : MassSpecData)
    (hrec : l (recordKey id) = Bytes.recordJson r)
    (hstat : r.status = some "analyzed" ∨ r.status = some "error")
    (hd : decodeEntry id (l (recordKey id)) = some d) :
    canAnalyze account d = false
    ∧ (analyzeData true l id).res =
        TxStatus.success "FHE molecular analysis completed successfully!"
    ∧ (analyzeData true l id).ledger (recordKey id) =
        Bytes.recordJson
          { r with status := some "analyzed", fheResult := some fheResultConst } := by
  refine ⟨?_, by simp [analyzeData, hrec], by simp [analyzeData, hrec, setKV]⟩
  rw [hrec] at hd
  simp only [decodeEntry, Option.some.injEq] at hd
  have hds : d.status = statusOrPending r.status := by rw [← hd]
  have : d.status ≠ "pending" := by
    rcases hstat with h | h <;> rw [hds, h] <;> simp [statusOrPending]
  simp [canAnalyze, this]

/-- Witness for the C2 amended theorem on a concrete `error` record. -/
theorem analyze_no_status_check_witness :
    (ledgerError (recordKey "d1") = Bytes.recordJson rError
      ∧ (rError.status = some "analyzed" ∨ rError.status = some "error")
      ∧ decodeEntry "d1" (ledgerError (recordKey "d1")) =
          some { id := "d1", encryptedData := "FHE-MS-x", timestamp := 5,
                 owner := "0xAAA", sampleType := "Protein", status := "error",
                 fheResult := none })
    ∧ (canAnalyze "0xAAA"
          { id := "d1", encryptedData := "FHE-MS-x", timestamp := 5,
            owner := "0xAAA", sampleType := "Protein", status := "error",
            fheResult := none } = false
        ∧ (analyzeData true ledgerError "d1").res =
            TxStatus.success "FHE molecular analysis completed successfully!"
        ∧ (analyzeData true ledgerError "d1").ledger (recordKey "d1") =
            Bytes.recordJson
              { rError with status := some "analyzed",
                            fheResult := some fheResultConst }) :=
  ⟨⟨by decide, Or.inr rfl, by decide⟩,
   analyze_no_status_check ledgerError "d1" rError "0xAAA"
     { id := "d1", encryptedData := "FHE-MS-x", timestamp := 5,
       owner := "0xAAA", sampleType := "Protein", status := "error",
       fheResult := none }
     (by decide) (Or.inr rfl) (by decide)⟩

/-- C3 counterexample: a non-transport analysis failure (record bytes fail
`JSON.parse`) does not write status `error` back — no write is issued and
the stored bytes are untouched; the failure is only surfaced. -/
theorem analyze_failure_no_error_write_cex :
    (analyzeData true ledgerBad "d1").res =
        TxStatus.error ("Analysis failed: " ++ "Unexpected token")
    ∧ (analyzeData true ledgerBad "d1").writes = []
    ∧ (analyzeData true ledgerBad "d1").ledger (recordKey "d1") =
        Bytes.malformed "Unexpected token" := by
  refine ⟨by decide, by decide, by decide⟩

/-- C3 amended: every failure of the analyze operation — transport-level or
not — is surfaced with no ledger write, and no execution ever writes a
record with status `error`. -/
theorem analyze_failure_no_mutation (signerOk : Bool) (l : Ledger) (dataId : String) :
    ((∃ e, (analyzeData signerOk l dataId).res = TxStatus.error e) →
        (analyzeData signerOk l dataId).writes = []
        ∧ (analyzeData signerOk l dataId).ledger = l)
    ∧ (∀ w ∈ (analyzeData signerOk l dataId).writes,
        ∃ r : StoredRecord, w.2 = Bytes.recordJson r ∧ r.status = some "analyzed") := by
  cases signerOk
  · simp [analyzeData]
  · cases hb : l (recordKey dataId) <;> simp [analyzeData, hb]

/-- Witness for the C3 amended theorem on a concrete malformed record. -/
theorem analyze_failure_no_mutation_witness :
    ((∃ e, (analyzeData true ledgerBad "d1").res = TxStatus.error e) →
        (analyzeData true ledgerBad "d1").writes = []
        ∧ (analyzeData true ledgerBad "d1").ledger = ledgerBad)
    ∧ (∀ w ∈ (analyzeData true ledgerBad "d1").writes,
        ∃ r : StoredRecord, w.2 = Bytes.recordJson r ∧ r.status = some "analyzed") :=
  analyze_failure_no_mutation true ledgerBad "d1"


/-- C8 counterexample: `uploadData` appends the generated id with no
presence check — re-generating an id already in the index duplicates it. -/
theorem uploadData_duplicate_append_cex :
    (uploadData true ledgerIdx "0xAAA" nd0 1 "a" "X").ledger keysKey =
        Bytes.keysJson ["ms-1-a", "ms-1-a"]
    ∧ ¬ (["ms-1-a", "ms-1-a"] : List String).Nodup := by
  refine ⟨by decide, by decide⟩

/-- C8 amended: the append is unconditional; the index stays duplicate-free
exactly when the generated identifier is not already present. -/
theorem uploadData_append_nodup (l : Ledger) (account : String) (nd : NewData)
    (now : ℕ) (rand enc : String)
    (hfresh : genId now rand ∉ parseKeys (l keysKey))
    (hnodup : (parseKeys (l keysKey)).Nodup) :
    (uploadData true l account nd now rand enc).ledger keysKey =
        Bytes.keysJson (parseKeys (l keysKey) ++ [genId now rand])
    ∧ (parseKeys (l keysKey) ++ [genId now rand]).Nodup := by
  have hkk : ¬ (keysKey = recordKey (genId now rand)) :=
    fun h => recordKey_genId_ne_keysKey now rand h.symm
  constructor
  · simp [uploadData, setKV, hkk]
  · simp [List.nodup_append, hnodup, hfresh]

/-- Witness for the C8 amended theorem starting from the empty index. -/
theorem uploadData_append_nodup_witness :
    (genId 1 "a" ∉ parseKeys (emptyLedger keysKey)
      ∧ (parseKeys (emptyLedger keysKey)).Nodup)
    ∧ ((uploadData true emptyLedger "0xAAA" nd0 1 "a" "X").ledger keysKey =
          Bytes.keysJson (parseKeys (emptyLedger keysKey) ++ [genId 1 "a"])
        ∧ (parseKeys (emptyLedger keysKey) ++ [genId 1 "a"]).Nodup) :=
  ⟨⟨by decide, by decide⟩,
   uploadData_append_nodup emptyLedger "0xAAA" nd0 1 "a" "X" (by decide) (by decide)⟩

/-- C6: identifier generation is injective in the (clock, random-suffix)
pair; the record is written under its derived key strictly before the index
is appended to and written back; and the subsequent listing includes a
record with the generated identifier and status `pending`. -/
theorem uploadData_create_spec (l : Ledger) (account : String) (nd : NewData)
    (now : ℕ) (rand enc : String) (now' : ℕ) (rand' : String)
    (hne : ¬ (now = now' ∧ rand = rand')) :
    genId now rand ≠ genId now' rand'
    ∧ (uploadData true l account nd now rand enc).writes =
        [(recordKey (genId now rand),
          Bytes.recordJson
            { data := "FHE-MS-" ++ enc, timestamp := ((now / 1000 : ℕ) : ℤ),
              owner := account, sampleType := nd.sampleType,
              status := some "pending", fheResult := none }),
         (keysKey,
          Bytes.keysJson (parseKeys (l keysKey) ++ [genId now rand]))]
    ∧ ∃ d ∈ loadDataList ((uploadData true l account nd now rand enc).ledger),
        d.id = genId now rand ∧ d.status = "pending" := by
  have hkk : ¬ (keysKey = recordKey (genId now rand)) :=
    fun h => recordKey_genId_ne_keysKey now rand h.symm
  have hkk2 : ¬ (recordKey (genId now rand) = keysKey) :=
    recordKey_genId_ne_keysKey now rand
  refine ⟨fun h => hne (genId_inj now now' rand rand' h), ?_, ?_⟩
  · simp [uploadData, setKV, hkk]
  · refine ⟨{ id := genId now rand, encryptedData := "FHE-MS-" ++ enc,
              timestamp := ((now / 1000 : ℕ) : ℤ), owner := account,
              sampleType := nd.sampleType, status := "pending", fheResult := none },
            ?_, rfl, rfl⟩
    rw [mem_loadDataList_iff]
    refine ⟨genId now rand, ?_, ?_⟩
    · simp [uploadData, setKV, hkk, parseKeys]
    · simp [uploadData, setKV, hkk, hkk2, decodeEntry, statusOrPending]

/-- Witness for C6 at concrete clock values and suffixes. -/
theorem uploadData_create_spec_witness :
    ¬ ((1 : ℕ) = 2 ∧ ("a" : String) = "a")
    ∧ (genId 1 "a" ≠ genId 2 "a"
        ∧ (uploadData true emptyLedger "0xAAA" nd0 1 "a" "X").writes =
            [(recordKey (genId 1 "a"),
              Bytes.recordJson
                { data := "FHE-MS-" ++ "X", timestamp := (((1 : ℕ) / 1000 : ℕ) : ℤ),
                  owner := "0xAAA", sampleType := nd0.sampleType,
                  status := some "pending", fheResult := none }),
             (keysKey,
              Bytes.keysJson (parseKeys (emptyLedger keysKey) ++ [genId 1 "a"]))]
        ∧ ∃ d ∈ loadDataList ((uploadData true emptyLedger "0xAAA" nd0 1 "a" "X").ledger),
            d.id = genId 1 "a" ∧ d.status = "pending") :=
  ⟨by decide,
   uploadData_create_spec emptyLedger "0xAAA" nd0 1 "a" "X" 2 "a" (by decide)⟩

end MassSpecFHE
